import Mathlib

/-
  Verification of the stream-lifecycle bridge of envoy-mobile
  (src/library/common/http/client.h).

  The repository excerpt contains only the interface header `client.h`.
  Functions whose bodies appear inline in the header (getCancelDetails,
  streamErrorOnInvalidHttpMessage, encodeMetadata, encode100ContinueHeaders,
  readDisable, bufferLimit, setAccount, setFlushTimeout, the Client
  constructor and the startStream signature) are embedded directly from
  that source. The implementation file `client.cc` is not part of the
  excerpt, so the behavioural state machine of DirectStreamCallbacks /
  DirectStream / Client (delivery, buffering, cancellation, deferred
  errors, deferred destruction) is modelled from the specification, as
  marked on each such definition.
-/

set_option maxHeartbeats 1000000

namespace EnvoyMobile

/-- From client.h:104-106: `getCancelDetails` returns the fixed string used to
fill response code details for streams cancelled via `cancelStream`. -/
def getCancelDetails : String := "client cancelled stream"

/-- Outcome of invoking one of the engine-facing stream-contract operations
whose bodies are inline in client.h: either a silent return (`ok`) or a
process-fatal failure (`fatal`, from `PANIC` / `NOT_IMPLEMENTED_GCOVR_EXCL_LINE`). -/
inductive OpOutcome where
  | ok : OpOutcome
  | fatal : String → OpOutcome
deriving DecidableEq

namespace DirectStream

/-- From client.h:213: `readDisable(bool) override {}` — a silent no-op
(marked TODO in the source). -/
def readDisable (_disable : Bool) : OpOutcome := OpOutcome.ok

/-- From client.h:214: `bufferLimit() override { return 65000; }`. -/
def bufferLimit : Nat := 65000

/-- From client.h:216-218: `setAccount` is `PANIC("buffer accounts unsupported")`. -/
def setAccount : OpOutcome := OpOutcome.fatal "buffer accounts unsupported"

/-- From client.h:219: `setFlushTimeout(std::chrono::milliseconds) override {}` —
a silent no-op. -/
def setFlushTimeout (_ms : Nat) : OpOutcome := OpOutcome.ok

end DirectStream

namespace DirectStreamCallbacks

/-- From client.h:140: `encodeMetadata(const MetadataMapVector&) override
{ NOT_IMPLEMENTED_GCOVR_EXCL_LINE; }` — process-fatal. -/
def encodeMetadataOp : OpOutcome := OpOutcome.fatal "not implemented"

/-- From client.h:134-137: `encode100ContinueHeaders` is
`NOT_IMPLEMENTED_GCOVR_EXCL_LINE` — process-fatal. -/
def encode100ContinueHeaders : OpOutcome := OpOutcome.fatal "not implemented"

end DirectStreamCallbacks

/-- Error payload carried by `onError`: code, opaque message, optional retry
attempt count (client.h:174-176: `error_code_`, `error_message_`,
`error_attempt_count_`). -/
structure ErrorInfo where
  errorCode : Nat
  message : String
  attemptCount : Option Nat
deriving DecidableEq

/-- Modelled from the spec (client.cc is absent; fields mirror the
DirectStreamCallbacks / DirectStream members declared at client.h:171-233):
per-stream state of the Stream State and Response Adapter.
`asyncMode` is the pull-mode indicator, `responseHeadersSent` the
headers-delivered flag, `endStreamLocal` local-close-observed,
`endStreamRead` remote-close-observed, `endStreamCommunicated` the
close-already-communicated-to-caller flag, `deferredError`/`pendingError`
the held error, `responseData` the buffered inbound body bytes,
`responseTrailers` whether trailers are buffered, `bytesToSend` the
outstanding pull-mode byte request, and `panicked` records that a
process-fatal stub was hit. -/
structure StreamState where
  asyncMode : Bool
  responseHeadersSent : Bool
  endStreamLocal : Bool
  endStreamRead : Bool
  endStreamCommunicated : Bool
  deferredError : Bool
  pendingError : Option ErrorInfo
  responseData : List Nat
  responseTrailers : Bool
  bytesToSend : Nat
  panicked : Bool
deriving DecidableEq

/-- Modelled from the spec: the freshly created Response Adapter state at
`startStream`, in the given delivery mode. -/
def initState (asyncMode : Bool) : StreamState :=
  { asyncMode := asyncMode
    responseHeadersSent := false
    endStreamLocal := false
    endStreamRead := false
    endStreamCommunicated := false
    deferredError := false
    pendingError := none
    responseData := []
    responseTrailers := false
    bytesToSend := 0
    panicked := false }

/-- From client.h:138: `streamErrorOnInvalidHttpMessage() const override
{ return false; }` — constant in every stream state. -/
def streamErrorOnInvalidHttpMessage (_s : StreamState) : Bool := false

/-- Events acting on one stream: inbound events pushed by the engine
(`engineHeaders`/`engineData`/`engineTrailers`/`engineMetadata`/`engineError`)
and caller operations (`callerCancel`, `callerResume`, and the outbound
sends which close the local direction when `endStream` is set). -/
inductive Event where
  | engineHeaders : Bool → Event
  | engineData : List Nat → Bool → Event
  | engineTrailers : Event
  | engineMetadata : Event
  | engineError : ErrorInfo → Event
  | callerCancel : Event
  | callerResume : Nat → Event
  | callerSendHeaders : Bool → Event
  | callerSendData : Bool → Event
  | callerSendTrailers : Event
deriving DecidableEq

/-- The bridge callback vocabulary delivered to the caller
(envoy_http_callbacks): `onComplete`, `onCancel` and `onError` are the
terminal events. -/
inductive Callback where
  | onHeaders : Bool → Callback
  | onData : List Nat → Bool → Callback
  | onTrailers : Callback
  | onMetadata : Callback
  | onComplete : Callback
  | onCancel : String → Callback
  | onError : ErrorInfo → Callback
deriving DecidableEq

/-- Modelled from the spec: state after a terminal error is surfaced to the
caller — both directions closed for reading, the held error consumed, and
any queued body/trailers superseded (dropped). -/
def surfaceError (s : StreamState) : StreamState :=
  { s with endStreamCommunicated := true
           endStreamRead := true
           pendingError := none
           deferredError := false
           responseData := []
           responseTrailers := false
           bytesToSend := 0 }

/-- Modelled from the spec (client.cc is absent; client.h:147-156 documents
`resumeData`): ship `min(bytes_to_send, available)` buffered bytes to the
bridge exactly once, consuming the outstanding request; finish with
trailers/completion when the buffer is drained and the remote side has
ended. -/
def shipBuffered (s : StreamState) (n : Nat) : StreamState × List Callback :=
  let k := min n s.responseData.length
  let chunk := s.responseData.take k
  let rest := s.responseData.drop k
  if rest.isEmpty && s.endStreamRead && !s.responseTrailers then
    ({ s with responseData := rest, bytesToSend := 0, endStreamCommunicated := true },
      [Callback.onData chunk true, Callback.onComplete])
  else if rest.isEmpty && s.endStreamRead && s.responseTrailers then
    ({ s with responseData := rest, responseTrailers := false, bytesToSend := 0,
              endStreamCommunicated := true },
      [Callback.onData chunk false, Callback.onTrailers, Callback.onComplete])
  else
    ({ s with responseData := rest, bytesToSend := 0 }, [Callback.onData chunk false])

/-- Modelled from the spec (client.cc is absent; the contract is spec sections
4.1-4.3 plus the comments at client.h:111-117, 147-156 and 267-273): one
transition of the per-stream bridge. Once the terminal event has been
communicated, or after a process-fatal stub, no further callback of any
kind is delivered. `engineMetadata` hits the `encodeMetadata`
NOT_IMPLEMENTED stub (client.h:140) and is process-fatal. -/
def step (s : StreamState) (e : Event) : StreamState × List Callback :=
  if s.panicked then (s, [])
  else if s.endStreamCommunicated then (s, [])
  else
    match e with
    | Event.engineHeaders endStream =>
      match s.pendingError with
      | some err => (surfaceError s, [Callback.onError err])
      | none =>
        if endStream then
          ({ s with responseHeadersSent := true, endStreamRead := true,
                    endStreamCommunicated := true },
            [Callback.onHeaders true, Callback.onComplete])
        else
          ({ s with responseHeadersSent := true }, [Callback.onHeaders false])
    | Event.engineData b endStream =>
      match s.pendingError with
      | some err => (surfaceError s, [Callback.onError err])
      | none =>
        if s.asyncMode then
          let s1 := { s with responseData := s.responseData ++ b, endStreamRead := endStream }
          if 0 < s.bytesToSend then shipBuffered s1 s.bytesToSend else (s1, [])
        else
          if endStream then
            ({ s with endStreamRead := true, endStreamCommunicated := true },
              [Callback.onData b true, Callback.onComplete])
          else
            (s, [Callback.onData b false])
    | Event.engineTrailers =>
      match s.pendingError with
      | some err => (surfaceError s, [Callback.onError err])
      | none =>
        if s.asyncMode then
          if 0 < s.bytesToSend && s.responseData.isEmpty then
            ({ s with endStreamRead := true, endStreamCommunicated := true,
                      responseTrailers := false, bytesToSend := 0 },
              [Callback.onTrailers, Callback.onComplete])
          else
            ({ s with responseTrailers := true, endStreamRead := true }, [])
        else
          ({ s with endStreamRead := true, endStreamCommunicated := true },
            [Callback.onTrailers, Callback.onComplete])
    | Event.engineMetadata => ({ s with panicked := true }, [])
    | Event.engineError err =>
      if !s.responseHeadersSent then
        ({ s with deferredError := true, pendingError := some err }, [])
      else if !s.asyncMode then
        (surfaceError s, [Callback.onError err])
      else if 0 < s.bytesToSend then
        (surfaceError s, [Callback.onError err])
      else
        ({ s with deferredError := true, pendingError := some err }, [])
    | Event.callerCancel =>
      ({ s with endStreamLocal := true, endStreamRead := true,
                endStreamCommunicated := true, pendingError := none,
                deferredError := false, responseData := [],
                responseTrailers := false, bytesToSend := 0 },
        [Callback.onCancel getCancelDetails])
    | Event.callerResume n =>
      if !s.asyncMode then (s, [])
      else
        match s.pendingError with
        | some err => (surfaceError s, [Callback.onError err])
        | none =>
          if !s.responseData.isEmpty then shipBuffered s n
          else if s.responseTrailers && s.endStreamRead then
            ({ s with responseTrailers := false, endStreamCommunicated := true,
                      bytesToSend := 0 },
              [Callback.onTrailers, Callback.onComplete])
          else if s.endStreamRead then
            ({ s with endStreamCommunicated := true, bytesToSend := 0 },
              [Callback.onData [] true, Callback.onComplete])
          else
            ({ s with bytesToSend := n }, [])
    | Event.callerSendHeaders endStream =>
      ({ s with endStreamLocal := s.endStreamLocal || endStream }, [])
    | Event.callerSendData endStream =>
      ({ s with endStreamLocal := s.endStreamLocal || endStream }, [])
    | Event.callerSendTrailers =>
      ({ s with endStreamLocal := true }, [])

/-- Iterate `step` over an event list, collecting the callbacks delivered to
the caller's bridge in order. -/
def run (s : StreamState) (es : List Event) : StreamState × List Callback :=
  match es with
  | [] => (s, [])
  | e :: rest =>
    let p := step s e
    let q := run p.1 rest
    (q.1, p.2 ++ q.2)

/-- A terminal bridge callback: success, cancellation, or error. -/
def isTerminal : Callback → Bool
  | Callback.onComplete => true
  | Callback.onCancel _ => true
  | Callback.onError _ => true
  | _ => false

/-- Number of terminal callbacks in a delivered sequence. -/
def terminalCount (l : List Callback) : Nat :=
  (l.filter (fun c => isTerminal c)).length

/-- True iff no callback of any kind follows a terminal callback in the
delivered sequence. -/
def noCallbackAfterTerminal : List Callback → Bool
  | [] => true
  | c :: rest => if isTerminal c then rest.isEmpty else noCallbackAfterTerminal rest

/-- Concatenation of all body bytes delivered to the caller via `onData`. -/
def deliveredBytes : List Callback → List Nat
  | [] => []
  | Callback.onData b _ :: rest => b ++ deliveredBytes rest
  | _ :: rest => deliveredBytes rest

/-- Concatenation of all body bytes produced by the engine via `engineData`. -/
def producedBytes : List Event → List Nat
  | [] => []
  | Event.engineData b _ :: rest => b ++ producedBytes rest
  | _ :: rest => producedBytes rest

/-- Number of `onData` callbacks in a delivered sequence. -/
def countData (l : List Callback) : Nat :=
  (l.filter (fun c => match c with | Callback.onData _ _ => true | _ => false)).length

/-- Push-mode streams never buffer inbound body bytes: the adapter's buffer is
only populated in async (pull) mode. -/
def pushInv (s : StreamState) : Prop :=
  s.asyncMode = false → s.responseData = []

/-- From client.h:42-51 and 267-273: the client-wide configuration. The
`async_mode_` flag is a constructor parameter of `Client` (default false),
not a per-stream argument. -/
structure Client where
  asyncMode : Bool
deriving DecidableEq

/-- From client.h:60, `startStream(envoy_stream_t stream, envoy_http_callbacks
bridge_callbacks)` takes only the stream handle and the bridge callbacks —
there is no per-stream mode argument. Modelled from the spec for the absent
client.cc body: it creates the fresh Response Adapter state, whose delivery
mode comes from the client-wide `async_mode_` flag (client.h:46, 273). -/
def Client.startStream (c : Client) (_streamHandle : Nat) : StreamState :=
  initState c.asyncMode

/-- A concrete mid-response stream state: push mode, response headers already
delivered to the caller, stream still live. -/
def midStream : StreamState :=
  { initState false with responseHeadersSent := true }

/-- A concrete mid-body pull-mode stream state: headers delivered, two body
bytes buffered, an error already held for deferred delivery. -/
def busyStream : StreamState :=
  { initState true with
    responseHeadersSent := true
    responseData := [1, 2]
    pendingError := some ⟨13, "boom", some 2⟩ }

/-- A concrete pull-mode stream state with three buffered body bytes. -/
def pullStream : StreamState :=
  { initState true with responseHeadersSent := true, responseData := [1, 2, 3] }

/-- A concrete pull-mode stream state with headers delivered and nothing
buffered. -/
def emptyPullStream : StreamState :=
  { initState true with responseHeadersSent := true }

/-- Modelled from the spec (client.cc is absent; spec sections 4.1, 5 and the
comment at client.h:238-243): the actions of one engine work item that
matter for the lifetime of one stream. `engineRelease` is the teardown of
the engine's internal per-request (ActiveStream) object referencing the
stream; `removeStream` is `Client::removeStream`, which erases the registry
reference and hands the stream to a `DirectStreamWrapper` for deferred
deletion; `otherWork` is any unrelated work. -/
inductive WorkAction where
  | engineRelease : WorkAction
  | removeStream : WorkAction
  | otherWork : WorkAction
deriving DecidableEq

/-- Modelled from the spec: the strong references keeping one DirectStream
alive — the registry (`streams_` map entry), the engine's per-request
object, and the deferred-deletion `DirectStreamWrapper`. -/
structure LifeState where
  registryRef : Bool
  engineRef : Bool
  wrapperRef : Bool
deriving DecidableEq

/-- Observable lifetime events: execution of a work action, or the stream
object being freed (its last strong reference released). -/
inductive LifeEv where
  | act : WorkAction → LifeEv
  | freed : LifeEv
deriving DecidableEq

/-- Number of strong references currently keeping the stream alive. -/
def refCount (s : LifeState) : Nat :=
  (if s.registryRef then 1 else 0) + (if s.engineRef then 1 else 0) +
    (if s.wrapperRef then 1 else 0)

/-- Modelled from the spec: effect of one work action. Releasing a reference
frees the stream exactly when it was the last one; `removeStream` moves the
registry reference into the deferred-deletion wrapper, so it never frees
the stream by itself. -/
def doAction (s : LifeState) : WorkAction → LifeState × List LifeEv
  | WorkAction.engineRelease =>
    let s1 := { s with engineRef := false }
    (s1, LifeEv.act WorkAction.engineRelease ::
      (if s.engineRef && decide (refCount s1 = 0) then [LifeEv.freed] else []))
  | WorkAction.removeStream =>
    if s.registryRef then
      ({ s with registryRef := false, wrapperRef := true },
        [LifeEv.act WorkAction.removeStream])
    else (s, [LifeEv.act WorkAction.removeStream])
  | WorkAction.otherWork => (s, [LifeEv.act WorkAction.otherWork])

/-- Run the actions of a work item in order, collecting lifetime events. -/
def runActs (s : LifeState) : List WorkAction → LifeState × List LifeEv
  | [] => (s, [])
  | a :: rest =>
    let p := doAction s a
    let q := runActs p.1 rest
    (q.1, p.2 ++ q.2)

/-- Modelled from the spec: after the current work item completes, the
deferred-deletion facility destroys the `DirectStreamWrapper`, releasing
its strong reference; the stream is freed if that was the last one. -/
def drainDeferred (s : LifeState) : LifeState × List LifeEv :=
  if s.wrapperRef then
    let s1 := { s with wrapperRef := false }
    (s1, if decide (refCount s1 = 0) then [LifeEv.freed] else [])
  else (s, [])

/-- One engine work item: its actions in order, then the deferred-deletion
drain. -/
def runWorkItem (s : LifeState) (as : List WorkAction) : LifeState × List LifeEv :=
  let p := runActs s as
  let q := drainDeferred p.1
  (q.1, p.2 ++ q.2)

/-- True iff no work action is executed after the stream has been freed. -/
def noActAfterFreed : List LifeEv → Bool
  | [] => true
  | LifeEv.freed :: rest =>
    rest.all (fun ev => match ev with | LifeEv.act _ => false | _ => true)
  | LifeEv.act _ :: rest => noActAfterFreed rest

/-- A live stream registered in the registry and referenced by the engine's
per-request object, with no deferred deletion pending. -/
def initLife : LifeState :=
  { registryRef := true, engineRef := true, wrapperRef := false }

end EnvoyMobile

namespace EnvoyMobile

lemma shipBuffered_fst_endStreamLocal (s : StreamState) (n : Nat) :
    (shipBuffered s n).1.endStreamLocal = s.endStreamLocal := by
  simp only [shipBuffered]
  split_ifs <;> rfl

lemma step_snd_local_insensitive (s : StreamState) (e : Event) :
    (step { s with endStreamLocal := true } e).2 = (step s e).2 := by
  rcases s with ⟨am, rhs, el, er, ec, de, pe, rd, rt, bts, pk⟩
  cases e <;> cases pe <;> simp only [step, shipBuffered] <;> split_ifs <;> rfl

lemma step_local_engineHeaders (s : StreamState) (ES : Bool) :
    (step s (Event.engineHeaders ES)).1.endStreamLocal = s.endStreamLocal := by
  rcases s with ⟨am, rhs, el, er, ec, de, pe, rd, rt, bts, pk⟩
  cases pe <;> simp only [step, surfaceError] <;> split_ifs <;> rfl

lemma step_local_engineData (s : StreamState) (b : List Nat) (ES : Bool) :
    (step s (Event.engineData b ES)).1.endStreamLocal = s.endStreamLocal := by
  rcases s with ⟨am, rhs, el, er, ec, de, pe, rd, rt, bts, pk⟩
  cases pe <;> simp only [step, shipBuffered, surfaceError] <;> split_ifs <;> rfl

lemma step_local_engineTrailers (s : StreamState) :
    (step s Event.engineTrailers).1.endStreamLocal = s.endStreamLocal := by
  rcases s with ⟨am, rhs, el, er, ec, de, pe, rd, rt, bts, pk⟩
  cases pe <;> simp only [step, surfaceError] <;> split_ifs <;> rfl

lemma step_local_callerResume (s : StreamState) (n : Nat) :
    (step s (Event.callerResume n)).1.endStreamLocal = s.endStreamLocal := by
  rcases s with ⟨am, rhs, el, er, ec, de, pe, rd, rt, bts, pk⟩
  cases pe <;> simp only [step, shipBuffered, surfaceError] <;> split_ifs <;> rfl

end EnvoyMobile

namespace EnvoyMobile

lemma step_sendHeaders_spec (s : StreamState) (ES : Bool) :
    (step s (Event.callerSendHeaders ES)).1.endStreamRead = s.endStreamRead ∧
    (step s (Event.callerSendHeaders ES)).1.endStreamCommunicated = s.endStreamCommunicated := by
  rcases s with ⟨am, rhs, el, er, ec, de, pe, rd, rt, bts, pk⟩
  simp only [step] <;> split_ifs <;> exact ⟨rfl, rfl⟩

lemma step_sendData_spec (s : StreamState) (ES : Bool) :
    (step s (Event.callerSendData ES)).1.endStreamRead = s.endStreamRead ∧
    (step s (Event.callerSendData ES)).1.endStreamCommunicated = s.endStreamCommunicated := by
  rcases s with ⟨am, rhs, el, er, ec, de, pe, rd, rt, bts, pk⟩
  simp only [step] <;> split_ifs <;> exact ⟨rfl, rfl⟩

lemma step_sendTrailers_spec (s : StreamState) :
    (step s Event.callerSendTrailers).1.endStreamRead = s.endStreamRead ∧
    (step s Event.callerSendTrailers).1.endStreamCommunicated = s.endStreamCommunicated := by
  rcases s with ⟨am, rhs, el, er, ec, de, pe, rd, rt, bts, pk⟩
  simp only [step] <;> split_ifs <;> exact ⟨rfl, rfl⟩

/-- C9: the stream is full-duplex. Closing the outbound (local-to-remote)
direction — `sendHeaders`/`sendData` with endStream, or `sendTrailers` —
never closes the inbound direction (`endStreamRead` and
`endStreamCommunicated` are untouched); the inbound callbacks delivered for
engine events and resume requests are insensitive to the local-close flag;
and inbound events never close the outbound direction. -/
theorem full_duplex_independent_close (s : StreamState) (b : List Nat) (ES : Bool) (n : Nat) :
    ((step s (Event.callerSendHeaders ES)).1.endStreamRead = s.endStreamRead ∧
      (step s (Event.callerSendHeaders ES)).1.endStreamCommunicated = s.endStreamCommunicated ∧
      (step s (Event.callerSendData ES)).1.endStreamRead = s.endStreamRead ∧
      (step s (Event.callerSendData ES)).1.endStreamCommunicated = s.endStreamCommunicated ∧
      (step s Event.callerSendTrailers).1.endStreamRead = s.endStreamRead ∧
      (step s Event.callerSendTrailers).1.endStreamCommunicated = s.endStreamCommunicated) ∧
    ((step { s with endStreamLocal := true } (Event.engineHeaders ES)).2 =
        (step s (Event.engineHeaders ES)).2 ∧
      (step { s with endStreamLocal := true } (Event.engineData b ES)).2 =
        (step s (Event.engineData b ES)).2 ∧
      (step { s with endStreamLocal := true } Event.engineTrailers).2 =
        (step s Event.engineTrailers).2 ∧
      (step { s with endStreamLocal := true } (Event.callerResume n)).2 =
        (step s (Event.callerResume n)).2) ∧
    ((step s (Event.engineHeaders ES)).1.endStreamLocal = s.endStreamLocal ∧
      (step s (Event.engineData b ES)).1.endStreamLocal = s.endStreamLocal ∧
      (step s Event.engineTrailers).1.endStreamLocal = s.endStreamLocal ∧
      (step s (Event.callerResume n)).1.endStreamLocal = s.endStreamLocal) :=
  ⟨⟨(step_sendHeaders_spec s ES).1, (step_sendHeaders_spec s ES).2,
    (step_sendData_spec s ES).1, (step_sendData_spec s ES).2,
    (step_sendTrailers_spec s).1, (step_sendTrailers_spec s).2⟩,
   ⟨step_snd_local_insensitive s (Event.engineHeaders ES),
    step_snd_local_insensitive s (Event.engineData b ES),
    step_snd_local_insensitive s Event.engineTrailers,
    step_snd_local_insensitive s (Event.callerResume n)⟩,
   ⟨step_local_engineHeaders s ES, step_local_engineData s b ES,
    step_local_engineTrailers s, step_local_callerResume s n⟩⟩

/-- C10: `streamErrorOnInvalidHttpMessage` returns `false` for every stream in
every state (client.h:138). -/
theorem streamErrorOnInvalidHttpMessage_false (s : StreamState) :
    streamErrorOnInvalidHttpMessage s = false := rfl

/-- C8 counterexample: the claim that every bridge-unsupported engine-facing
stream operation fails process-fatally is false — `readDisable`
(client.h:213, an unimplemented TODO) and `setFlushTimeout` (client.h:219)
silently succeed as no-ops. -/
theorem silent_noop_operations_exist :
    DirectStream.readDisable true = OpOutcome.ok ∧
    DirectStream.setFlushTimeout 0 = OpOutcome.ok :=
  ⟨rfl, rfl⟩

/-- C8 amended: `setAccount` fails process-fatally (PANIC), as do
`encodeMetadata` and `encode100ContinueHeaders` (NOT_IMPLEMENTED); but
`readDisable` and `setFlushTimeout` silently succeed as no-ops. -/
theorem unsupported_ops_outcomes :
    DirectStream.setAccount = OpOutcome.fatal "buffer accounts unsupported" ∧
    DirectStreamCallbacks.encodeMetadataOp = OpOutcome.fatal "not implemented" ∧
    DirectStreamCallbacks.encode100ContinueHeaders = OpOutcome.fatal "not implemented" ∧
    DirectStream.readDisable true = OpOutcome.ok ∧
    DirectStream.readDisable false = OpOutcome.ok ∧
    DirectStream.setFlushTimeout 1000 = OpOutcome.ok :=
  ⟨rfl, rfl, rfl, rfl, rfl, rfl⟩

/-- C6 counterexample: the delivery mode is not selected per stream by a
`startStream` argument — `startStream` (client.h:60) takes no mode
parameter, so no two streams started on the same client can disagree on
their delivery mode. -/
theorem async_mode_not_per_stream :
    ¬ ∃ (c : Client) (h1 h2 : Nat),
        (c.startStream h1).asyncMode ≠ (c.startStream h2).asyncMode := by
  rintro ⟨c, h1, h2, hne⟩
  exact hne rfl

/-- C6 amended: the delivery mode is selected per client by the `async_mode`
constructor argument of `Client` (client.h:46, 273); every stream started
on a client operates in that client's mode. -/
theorem async_mode_per_client (c : Client) (h : Nat) :
    (c.startStream h).asyncMode = c.asyncMode := rfl

/-- C7 counterexample: inbound metadata is not delivered to the caller via
`onMetadata` — `encodeMetadata` is the NOT_IMPLEMENTED process-fatal stub
(client.h:140), so a metadata event on a live mid-response stream produces
no callback and aborts the process. -/
theorem metadata_not_delivered :
    Callback.onMetadata ∉ (step midStream Event.engineMetadata).2 ∧
    (step midStream Event.engineMetadata).1.panicked = true ∧
    DirectStreamCallbacks.encodeMetadataOp = OpOutcome.fatal "not implemented" := by
  refine ⟨?_, ?_, rfl⟩ <;> decide

/-- C7 amended: in push mode, on every live stream state with no held error,
every inbound headers, data and trailers event — for arbitrary payloads and
end-stream flags — is translated and delivered to the caller immediately as
exactly the corresponding bridge callback (with the terminal success
appended when the event ends the stream), so a sequence of inbound events
yields its callbacks in arrival order; inbound metadata is rejected
process-fatally instead of being delivered via `onMetadata`. -/
theorem push_mode_in_order_metadata_fatal (s : StreamState) (b b1 b2 : List Nat) (ES : Bool)
    (ha : s.asyncMode = false) (hp : s.panicked = false)
    (hc : s.endStreamCommunicated = false) (he : s.pendingError = none) :
    (step s (Event.engineHeaders ES)).2 =
        Callback.onHeaders ES :: (if ES then [Callback.onComplete] else []) ∧
    (step s (Event.engineData b ES)).2 =
        Callback.onData b ES :: (if ES then [Callback.onComplete] else []) ∧
    (step s Event.engineTrailers).2 = [Callback.onTrailers, Callback.onComplete] ∧
    (step s Event.engineMetadata).2 = [] ∧
    (step s Event.engineMetadata).1.panicked = true ∧
    (run (initState false)
        [Event.engineHeaders false, Event.engineData b1 false,
         Event.engineData b2 false, Event.engineTrailers]).2 =
      [Callback.onHeaders false, Callback.onData b1 false, Callback.onData b2 false,
       Callback.onTrailers, Callback.onComplete] := by
  refine ⟨?_, ?_, ?_, ?_, ?_, ?_⟩
  · cases ES <;> simp [step, hp, hc, he]
  · cases ES <;> simp [step, hp, hc, he, ha]
  · simp [step, hp, hc, he, ha]
  · simp [step, hp, hc]
  · simp [step, hp, hc]
  · rfl

/-- Witness for C7: on the concrete live push-mode stream `midStream`, a
headers or data event with end-stream set delivers its callback plus the
terminal success, trailers deliver `onTrailers` then success, and metadata
delivers nothing and is process-fatal. -/
theorem push_mode_in_order_metadata_fatal_witness :
    (step midStream (Event.engineHeaders true)).2 =
        Callback.onHeaders true :: (if true then [Callback.onComplete] else []) ∧
    (step midStream (Event.engineData [7] true)).2 =
        Callback.onData [7] true :: (if true then [Callback.onComplete] else []) ∧
    (step midStream Event.engineTrailers).2 =
        [Callback.onTrailers, Callback.onComplete] ∧
    (step midStream Event.engineMetadata).2 = [] ∧
    (step midStream Event.engineMetadata).1.panicked = true ∧
    (run (initState false)
        [Event.engineHeaders false, Event.engineData [1] false,
         Event.engineData [2] false, Event.engineTrailers]).2 =
      [Callback.onHeaders false, Callback.onData [1] false, Callback.onData [2] false,
       Callback.onTrailers, Callback.onComplete] :=
  push_mode_in_order_metadata_fatal midStream [7] [1] [2] true rfl rfl rfl rfl

/-- C3: on every live (non-terminal, non-panicked) stream, in any state,
`cancelStream` closes both directions and delivers exactly the single
`onCancel` callback carrying the fixed cancellation detail string,
superseding any otherwise-pending error outcome. -/
theorem cancelStream_delivers_onCancel (s : StreamState)
    (hp : s.panicked = false) (hc : s.endStreamCommunicated = false) :
    (step s Event.callerCancel).2 = [Callback.onCancel getCancelDetails] ∧
    (step s Event.callerCancel).1.endStreamCommunicated = true ∧
    (step s Event.callerCancel).1.endStreamLocal = true ∧
    (step s Event.callerCancel).1.endStreamRead = true ∧
    (step s Event.callerCancel).1.pendingError = none ∧
    (step s Event.callerCancel).1.responseData = [] := by
  simp [step, hp, hc]

/-- Witness for C3: cancelling a concrete mid-body pull-mode stream that has
buffered data and a pending error yields exactly the `onCancel` callback. -/
theorem cancelStream_delivers_onCancel_witness :
    (step busyStream Event.callerCancel).2 = [Callback.onCancel getCancelDetails] ∧
    (step busyStream Event.callerCancel).1.endStreamCommunicated = true ∧
    (step busyStream Event.callerCancel).1.endStreamLocal = true ∧
    (step busyStream Event.callerCancel).1.endStreamRead = true ∧
    (step busyStream Event.callerCancel).1.pendingError = none ∧
    (step busyStream Event.callerCancel).1.responseData = [] :=
  cancelStream_delivers_onCancel busyStream rfl rfl

end EnvoyMobile

namespace EnvoyMobile

lemma step_of_panicked (s : StreamState) (e : Event) (h : s.panicked = true) :
    step s e = (s, []) := by
  simp [step, h]

lemma step_of_done (s : StreamState) (e : Event) (h : s.endStreamCommunicated = true) :
    step s e = (s, []) := by
  by_cases hp : s.panicked <;> simp [step, hp, h]

lemma run_of_panicked : ∀ (es : List Event) (s : StreamState), s.panicked = true →
    run s es = (s, []) := by
  intro es
  induction es with
  | nil => intro s _; rfl
  | cons e rest ih =>
    intro s h
    simp [run, step_of_panicked s e h, ih s h]

lemma run_of_done : ∀ (es : List Event) (s : StreamState), s.endStreamCommunicated = true →
    run s es = (s, []) := by
  intro es
  induction es with
  | nil => intro s _; rfl
  | cons e rest ih =>
    intro s h
    simp [run, step_of_done s e h, ih s h]

lemma terminalCount_append (a b : List Callback) :
    terminalCount (a ++ b) = terminalCount a + terminalCount b := by
  simp [terminalCount, List.filter_append]

lemma noCb_append_of_none (a b : List Callback) (h : terminalCount a = 0) :
    noCallbackAfterTerminal (a ++ b) = noCallbackAfterTerminal b := by
  induction a with
  | nil => rfl
  | cons c rest ih =>
    by_cases hc : isTerminal c = true
    · exact absurd h (by simp [terminalCount, hc])
    · have h' : terminalCount rest = 0 := by simpa [terminalCount, hc] using h
      simp [noCallbackAfterTerminal, hc, ih h']

lemma step_terminal_spec (s : StreamState) (e : Event)
    (hp : s.panicked = false) (hd : s.endStreamCommunicated = false) :
    noCallbackAfterTerminal (step s e).2 = true ∧
    terminalCount (step s e).2 = (if (step s e).1.endStreamCommunicated then 1 else 0) := by
  rcases s with ⟨am, rhs, el, er, ec, de, pe, rd, rt, bts, pk⟩
  cases hp
  cases hd
  cases e <;> cases pe <;>
    simp only [step, shipBuffered, surfaceError] <;>
    split_ifs <;>
    simp_all [noCallbackAfterTerminal, terminalCount, isTerminal]

lemma run_terminal_spec : ∀ (es : List Event) (s : StreamState),
    s.endStreamCommunicated = false →
    noCallbackAfterTerminal (run s es).2 = true ∧
    terminalCount (run s es).2 = (if (run s es).1.endStreamCommunicated then 1 else 0) := by
  intro es
  induction es with
  | nil => intro s h; simp [run, h, noCallbackAfterTerminal, terminalCount]
  | cons e rest ih =>
    intro s h
    by_cases hp : s.panicked = true
    · have hr := run_of_panicked (e :: rest) s hp
      simp [hr, h, noCallbackAfterTerminal, terminalCount]
    · have hp' : s.panicked = false := by simpa using hp
      obtain ⟨h1, h2⟩ := step_terminal_spec s e hp' h
      by_cases hd : (step s e).1.endStreamCommunicated = true
      · have hr := run_of_done rest (step s e).1 hd
        constructor
        · simp only [run]
          simpa [hr] using h1
        · simp only [run]
          simp [hr, terminalCount_append, h2, hd]
      · have hd' : (step s e).1.endStreamCommunicated = false := by simpa using hd
        obtain ⟨ih1, ih2⟩ := ih (step s e).1 hd'
        have hz : terminalCount (step s e).2 = 0 := by simp [h2, hd']
        constructor
        · simp only [run]
          simpa [noCb_append_of_none _ _ hz] using ih1
        · simp only [run]
          simp [terminalCount_append, hz, ih2]

/-- C1: from a fresh stream in either delivery mode, along any event sequence,
no bridge callback of any kind follows a terminal callback (success, cancel
or error), and whenever the terminal state has been communicated exactly
one terminal callback was delivered. -/
theorem terminal_exactly_once (mode : Bool) (es : List Event) :
    noCallbackAfterTerminal (run (initState mode) es).2 = true ∧
    ((run (initState mode) es).1.endStreamCommunicated = true →
      terminalCount (run (initState mode) es).2 = 1) := by
  obtain ⟨h1, h2⟩ := run_terminal_spec es (initState mode) rfl
  refine ⟨h1, fun hc => ?_⟩
  simpa [hc] using h2

/-- Witness for C1: a concrete cancelled stream delivers exactly one terminal
callback and nothing after it. -/
theorem terminal_exactly_once_witness :
    noCallbackAfterTerminal (run (initState false) [Event.callerCancel]).2 = true ∧
    terminalCount (run (initState false) [Event.callerCancel]).2 = 1 :=
  ⟨(terminal_exactly_once false [Event.callerCancel]).1,
   (terminal_exactly_once false [Event.callerCancel]).2 (by decide)⟩

end EnvoyMobile

namespace EnvoyMobile

lemma shipBuffered_delivered (s : StreamState) (n : Nat) :
    deliveredBytes (shipBuffered s n).2 =
      s.responseData.take (min n s.responseData.length) := by
  simp only [shipBuffered]
  split_ifs <;> simp [deliveredBytes]

lemma shipBuffered_countData (s : StreamState) (n : Nat) :
    countData (shipBuffered s n).2 = 1 := by
  simp only [shipBuffered]
  split_ifs <;> simp [countData]

lemma shipBuffered_rest (s : StreamState) (n : Nat) :
    (shipBuffered s n).1.responseData =
      s.responseData.drop (min n s.responseData.length) := by
  simp only [shipBuffered]
  split_ifs <;> rfl

lemma deliveredBytes_append (a b : List Callback) :
    deliveredBytes (a ++ b) = deliveredBytes a ++ deliveredBytes b := by
  induction a with
  | nil => rfl
  | cons c rest ih => cases c <;> simp [deliveredBytes, ih]

lemma producedBytes_cons (e : Event) (rest : List Event) :
    producedBytes (e :: rest) = producedBytes [e] ++ producedBytes rest := by
  cases e <;> simp [producedBytes]

lemma prefix_append_left (w u v : List Nat) (h : u <+: v) : w ++ u <+: w ++ v := by
  obtain ⟨t, rfl⟩ := h
  exact ⟨t, by simp⟩

lemma step_pushInv (s : StreamState) (e : Event) (hinv : pushInv s) :
    pushInv (step s e).1 := by
  rcases s with ⟨am, rhs, el, er, ec, de, pe, rd, rt, bts, pk⟩
  simp only [pushInv] at hinv ⊢
  cases e <;> cases pe <;>
    simp only [step, shipBuffered, surfaceError] <;>
    split_ifs <;> simp_all

lemma step_bytes_conserve (s : StreamState) (e : Event)
    (hp : s.panicked = false) (hd : s.endStreamCommunicated = false) (hinv : pushInv s) :
    (deliveredBytes (step s e).2 ++ (step s e).1.responseData =
        s.responseData ++ producedBytes [e])
    ∨ ((step s e).1.endStreamCommunicated = true ∧
        deliveredBytes (step s e).2 <+: s.responseData ++ producedBytes [e]) := by
  rcases s with ⟨am, rhs, el, er, ec, de, pe, rd, rt, bts, pk⟩
  cases hp
  cases hd
  simp only [pushInv] at hinv
  cases e <;> cases pe <;>
    simp only [step, shipBuffered, surfaceError] <;>
    split_ifs <;>
    first
      | (left; simp_all [deliveredBytes, producedBytes, List.take_append_drop]; done)
      | (right; refine ⟨rfl, ?_⟩; simp [deliveredBytes, producedBytes]; done)

lemma run_bytes : ∀ (es : List Event) (s : StreamState), pushInv s →
    deliveredBytes (run s es).2 <+: s.responseData ++ producedBytes es := by
  intro es
  induction es with
  | nil =>
    intro s _
    simp [run, deliveredBytes, producedBytes]
  | cons e rest ih =>
    intro s hinv
    by_cases hp : s.panicked = true
    · rw [run_of_panicked (e :: rest) s hp]
      simp [deliveredBytes]
    by_cases hd : s.endStreamCommunicated = true
    · rw [run_of_done (e :: rest) s hd]
      simp [deliveredBytes]
    have hp' : s.panicked = false := by simpa using hp
    have hd' : s.endStreamCommunicated = false := by simpa using hd
    have hinv' := step_pushInv s e hinv
    have hrun2 : (run s (e :: rest)).2 = (step s e).2 ++ (run (step s e).1 rest).2 := by
      simp [run]
    have hpc : s.responseData ++ producedBytes (e :: rest) =
        (s.responseData ++ producedBytes [e]) ++ producedBytes rest := by
      cases e <;> simp [producedBytes]
    rcases step_bytes_conserve s e hp' hd' hinv with heq | ⟨hterm, hpre⟩
    · by_cases hq : (step s e).1.endStreamCommunicated = true
      · rw [hrun2, run_of_done rest (step s e).1 hq, hpc]
        have h1 : deliveredBytes (step s e).2 <+: s.responseData ++ producedBytes [e] := by
          rw [← heq]
          exact List.prefix_append _ _
        simpa [deliveredBytes_append, deliveredBytes] using h1.trans (List.prefix_append _ _)
      · by_cases hq2 : (step s e).1.panicked = true
        · rw [hrun2, run_of_panicked rest (step s e).1 hq2, hpc]
          have h1 : deliveredBytes (step s e).2 <+: s.responseData ++ producedBytes [e] := by
            rw [← heq]
            exact List.prefix_append _ _
          simpa [deliveredBytes_append, deliveredBytes] using h1.trans (List.prefix_append _ _)
        · have ihs := ih (step s e).1 hinv'
          rw [hrun2, deliveredBytes_append, hpc, ← heq, List.append_assoc]
          exact prefix_append_left _ _ _ ihs
    · rw [hrun2, run_of_done rest (step s e).1 hterm, hpc]
      simpa [deliveredBytes_append, deliveredBytes] using hpre.trans (List.prefix_append _ _)

end EnvoyMobile

namespace EnvoyMobile

/-- C4: pull-mode delivery. A resume request with byte limit `n` on a stream
with a nonempty buffer delivers exactly `min(n, buffered)` bytes in exactly
one `onData` callback and removes exactly those bytes from the buffer; a
resume on an empty buffer only records the requested count; a recorded
count `m` is satisfied exactly once by the next engine data chunk, with at
most `m` bytes; and globally the bytes delivered along any run are a prefix
of the bytes produced by the engine, so no byte is ever redelivered. -/
theorem resumeData_delivers_min_once (s t : StreamState) (n m : Nat) (b : List Nat)
    (ES : Bool) (mode : Bool) (es : List Event)
    (hsa : s.asyncMode = true) (hsp : s.panicked = false)
    (hsc : s.endStreamCommunicated = false) (hse : s.pendingError = none)
    (hsd : s.responseData ≠ [])
    (hta : t.asyncMode = true) (htp : t.panicked = false)
    (htc : t.endStreamCommunicated = false) (hte : t.pendingError = none)
    (htd : t.responseData = []) (htr : t.endStreamRead = false)
    (htt : t.responseTrailers = false)
    (hm : 0 < m) :
    deliveredBytes (step s (Event.callerResume n)).2 =
        s.responseData.take (min n s.responseData.length) ∧
    countData (step s (Event.callerResume n)).2 = 1 ∧
    (step s (Event.callerResume n)).1.responseData =
        s.responseData.drop (min n s.responseData.length) ∧
    step t (Event.callerResume n) = ({ t with bytesToSend := n }, []) ∧
    deliveredBytes (step { t with bytesToSend := m } (Event.engineData b ES)).2 =
        b.take (min m b.length) ∧
    countData (step { t with bytesToSend := m } (Event.engineData b ES)).2 = 1 ∧
    deliveredBytes (run (initState mode) es).2 <+: producedBytes es := by
  have hne : s.responseData.isEmpty = false := by
    simp [List.isEmpty_iff]
    exact hsd
  have hstep : step s (Event.callerResume n) = shipBuffered s n := by
    simp [step, hsp, hsc, hsa, hse, hne]
  have htne : t.responseData.isEmpty = true := by
    simp [List.isEmpty_iff, htd]
  refine ⟨?_, ?_, ?_, ?_, ?_, ?_, ?_⟩
  · rw [hstep]
    exact shipBuffered_delivered s n
  · rw [hstep]
    exact shipBuffered_countData s n
  · rw [hstep]
    exact shipBuffered_rest s n
  · simp [step, htp, htc, hta, hte, htne, htr, htt]
  · simp [step, htp, htc, hta, hte, hm, shipBuffered_delivered, htd]
  · simp [step, htp, htc, hta, hte, hm, shipBuffered_countData]
  · have h := run_bytes es (initState mode) (by intro _; rfl)
    simpa [initState] using h

/-- Witness for C4 at concrete pull-mode streams: `pullStream` holds bytes
`[1, 2, 3]`; a resume of 2 delivers `[1, 2]` once and leaves `[3]`;
`emptyPullStream` remembers a resume of 2 and satisfies a remembered count
of 5 from the next chunk `[4, 5]`. -/
theorem resumeData_delivers_min_once_witness :
    deliveredBytes (step pullStream (Event.callerResume 2)).2 =
        pullStream.responseData.take (min 2 pullStream.responseData.length) ∧
    countData (step pullStream (Event.callerResume 2)).2 = 1 ∧
    (step pullStream (Event.callerResume 2)).1.responseData =
        pullStream.responseData.drop (min 2 pullStream.responseData.length) ∧
    step emptyPullStream (Event.callerResume 2) =
        ({ emptyPullStream with bytesToSend := 2 }, []) ∧
    deliveredBytes (step { emptyPullStream with bytesToSend := 5 }
        (Event.engineData [4, 5] false)).2 = [4, 5].take (min 5 [4, 5].length) ∧
    countData (step { emptyPullStream with bytesToSend := 5 }
        (Event.engineData [4, 5] false)).2 = 1 ∧
    deliveredBytes (run (initState true) [Event.engineData [9] false]).2 <+:
        producedBytes [Event.engineData [9] false] :=
  resumeData_delivers_min_once pullStream emptyPullStream 2 5 [4, 5] false true
    [Event.engineData [9] false] rfl rfl rfl rfl (by decide) rfl rfl rfl rfl rfl rfl rfl
    (by decide)

/-- C5: deferred errors. An error arriving before response headers have been
delivered is held (recorded in `deferredError`/`pendingError`, no callback,
never dropped); a held error surfaces as the single `onError` terminal at
the next delivery point — headers, data, trailers, or (in pull mode) a
resume request — and supersedes any buffered body bytes and trailers. -/
theorem deferred_error_surfaces (s t : StreamState) (err : ErrorInfo) (b : List Nat)
    (ES : Bool) (n : Nat)
    (hsp : s.panicked = false) (hsc : s.endStreamCommunicated = false)
    (hsh : s.responseHeadersSent = false)
    (htp : t.panicked = false) (htc : t.endStreamCommunicated = false)
    (hte : t.pendingError = some err) :
    step s (Event.engineError err) =
        ({ s with deferredError := true, pendingError := some err }, []) ∧
    (step t (Event.engineHeaders ES)).2 = [Callback.onError err] ∧
    (step t (Event.engineHeaders ES)).1.endStreamCommunicated = true ∧
    (step t (Event.engineData b ES)).2 = [Callback.onError err] ∧
    (step t (Event.engineData b ES)).1.endStreamCommunicated = true ∧
    (step t (Event.engineData b ES)).1.responseData = [] ∧
    (step t (Event.engineData b ES)).1.responseTrailers = false ∧
    (step t Event.engineTrailers).2 = [Callback.onError err] ∧
    (step t Event.engineTrailers).1.endStreamCommunicated = true ∧
    (t.asyncMode = true → (step t (Event.callerResume n)).2 = [Callback.onError err]) := by
  refine ⟨?_, ?_, ?_, ?_, ?_, ?_, ?_, ?_, ?_, ?_⟩
  · simp [step, hsp, hsc, hsh]
  · simp [step, htp, htc, hte, surfaceError]
  · simp [step, htp, htc, hte, surfaceError]
  · simp [step, htp, htc, hte, surfaceError]
  · simp [step, htp, htc, hte, surfaceError]
  · simp [step, htp, htc, hte, surfaceError]
  · simp [step, htp, htc, hte, surfaceError]
  · simp [step, htp, htc, hte, surfaceError]
  · simp [step, htp, htc, hte, surfaceError]
  · intro ha
    simp [step, htp, htc, hte, ha, surfaceError]

/-- Witness for C5: an error on a fresh stream (headers never sent) is held
with no callback; the error held by `busyStream` surfaces as `onError` at
every delivery point, wiping its buffered bytes. -/
theorem deferred_error_surfaces_witness :
    step (initState false) (Event.engineError ⟨13, "boom", some 2⟩) =
        ({ initState false with deferredError := true, pendingError := some ⟨13, "boom", some 2⟩ },
          []) ∧
    (step busyStream (Event.engineHeaders false)).2 =
        [Callback.onError ⟨13, "boom", some 2⟩] ∧
    (step busyStream (Event.engineHeaders false)).1.endStreamCommunicated = true ∧
    (step busyStream (Event.engineData [7] false)).2 =
        [Callback.onError ⟨13, "boom", some 2⟩] ∧
    (step busyStream (Event.engineData [7] false)).1.endStreamCommunicated = true ∧
    (step busyStream (Event.engineData [7] false)).1.responseData = [] ∧
    (step busyStream (Event.engineData [7] false)).1.responseTrailers = false ∧
    (step busyStream Event.engineTrailers).2 =
        [Callback.onError ⟨13, "boom", some 2⟩] ∧
    (step busyStream Event.engineTrailers).1.endStreamCommunicated = true ∧
    (busyStream.asyncMode = true → (step busyStream (Event.callerResume 4)).2 =
        [Callback.onError ⟨13, "boom", some 2⟩]) :=
  deferred_error_surfaces (initState false) busyStream ⟨13, "boom", some 2⟩ [7] false 4
    rfl rfl rfl rfl rfl rfl

end EnvoyMobile

namespace EnvoyMobile

lemma runActs_acts : ∀ (as : List WorkAction) (s : LifeState),
    (s.registryRef || s.wrapperRef) = true →
    (runActs s as).2 = as.map LifeEv.act ∧
    ((runActs s as).1.registryRef || (runActs s as).1.wrapperRef) = true := by
  intro as
  induction as with
  | nil => intro s h; exact ⟨rfl, h⟩
  | cons a rest ih =>
    intro s h
    cases a
    case engineRelease =>
      have hrc : ¬ (refCount { s with engineRef := false } = 0) := by
        rcases s with ⟨r, e, w⟩
        cases r <;> cases w <;> simp_all [refCount]
      obtain ⟨ih1, ih2⟩ := ih { s with engineRef := false } (by simpa using h)
      constructor
      · simp [runActs, doAction, hrc, ih1]
      · simpa [runActs, doAction, hrc] using ih2
    case removeStream =>
      by_cases hr : s.registryRef = true
      · obtain ⟨ih1, ih2⟩ :=
          ih { s with registryRef := false, wrapperRef := true } (by simp)
        constructor
        · simp [runActs, doAction, hr, ih1]
        · simpa [runActs, doAction, hr] using ih2
      · have hw : s.wrapperRef = true := by
          rcases s with ⟨r, e, w⟩
          simp_all
        obtain ⟨ih1, ih2⟩ := ih s (by simp [hw])
        constructor
        · simp [runActs, doAction, hr, ih1]
        · simpa [runActs, doAction, hr] using ih2
    case otherWork =>
      obtain ⟨ih1, ih2⟩ := ih s h
      constructor
      · simp [runActs, doAction, ih1]
      · simpa [runActs, doAction] using ih2

lemma runActs_engineRef_mono : ∀ (as : List WorkAction) (s : LifeState),
    s.engineRef = false → (runActs s as).1.engineRef = false := by
  intro as
  induction as with
  | nil => intro s h; exact h
  | cons a rest ih =>
    intro s h
    cases a
    case engineRelease => simpa [runActs, doAction] using ih _ rfl
    case removeStream =>
      by_cases hr : s.registryRef = true <;>
        simpa [runActs, doAction, hr] using ih _ (by simpa using h)
    case otherWork => simpa [runActs, doAction] using ih _ h

lemma runActs_engineRef_of_mem : ∀ (as : List WorkAction) (s : LifeState),
    WorkAction.engineRelease ∈ as → (runActs s as).1.engineRef = false := by
  intro as
  induction as with
  | nil => intro s h; cases h
  | cons a rest ih =>
    intro s h
    cases a
    case engineRelease =>
      simpa [runActs, doAction] using runActs_engineRef_mono rest _ rfl
    case removeStream =>
      have hmem : WorkAction.engineRelease ∈ rest := by
        rcases List.mem_cons.mp h with h1 | h1
        · cases h1
        · exact h1
      by_cases hr : s.registryRef = true <;>
        simpa [runActs, doAction, hr] using ih _ hmem
    case otherWork =>
      have hmem : WorkAction.engineRelease ∈ rest := by
        rcases List.mem_cons.mp h with h1 | h1
        · cases h1
        · exact h1
      simpa [runActs, doAction] using ih _ hmem

lemma runActs_registry_mono : ∀ (as : List WorkAction) (s : LifeState),
    s.registryRef = false → (runActs s as).1.registryRef = false := by
  intro as
  induction as with
  | nil => intro s h; exact h
  | cons a rest ih =>
    intro s h
    cases a
    case engineRelease => simpa [runActs, doAction] using ih _ (by simpa using h)
    case removeStream =>
      by_cases hr : s.registryRef = true
      · exact absurd hr (by simp [h])
      · simpa [runActs, doAction, hr] using ih _ h
    case otherWork => simpa [runActs, doAction] using ih _ h

lemma runActs_registry_of_mem : ∀ (as : List WorkAction) (s : LifeState),
    WorkAction.removeStream ∈ as → (runActs s as).1.registryRef = false := by
  intro as
  induction as with
  | nil => intro s h; cases h
  | cons a rest ih =>
    intro s h
    cases a
    case removeStream =>
      by_cases hr : s.registryRef = true <;>
        first
          | simpa [runActs, doAction, hr] using runActs_registry_mono rest _ rfl
          | (have hr' : s.registryRef = false := by simpa using hr
             simpa [runActs, doAction, hr] using runActs_registry_mono rest _ hr')
    case engineRelease =>
      have hmem : WorkAction.removeStream ∈ rest := by
        rcases List.mem_cons.mp h with h1 | h1
        · cases h1
        · exact h1
      simpa [runActs, doAction] using ih _ hmem
    case otherWork =>
      have hmem : WorkAction.removeStream ∈ rest := by
        rcases List.mem_cons.mp h with h1 | h1
        · cases h1
        · exact h1
      simpa [runActs, doAction] using ih _ hmem

lemma runActs_wrapper_mono : ∀ (as : List WorkAction) (s : LifeState),
    s.wrapperRef = true → (runActs s as).1.wrapperRef = true := by
  intro as
  induction as with
  | nil => intro s h; exact h
  | cons a rest ih =>
    intro s h
    cases a
    case engineRelease => simpa [runActs, doAction] using ih _ (by simpa using h)
    case removeStream =>
      by_cases hr : s.registryRef = true <;>
        simpa [runActs, doAction, hr] using ih _ (by simpa using h)
    case otherWork => simpa [runActs, doAction] using ih _ h

lemma runActs_wrapper_of_mem : ∀ (as : List WorkAction) (s : LifeState),
    (s.registryRef || s.wrapperRef) = true → WorkAction.removeStream ∈ as →
    (runActs s as).1.wrapperRef = true := by
  intro as
  induction as with
  | nil => intro s _ h; cases h
  | cons a rest ih =>
    intro s hi h
    cases a
    case removeStream =>
      by_cases hr : s.registryRef = true
      · simpa [runActs, doAction, hr] using runActs_wrapper_mono rest _ rfl
      · have hw : s.wrapperRef = true := by
          rcases s with ⟨r, e, w⟩
          simp_all
        simpa [runActs, doAction, hr] using runActs_wrapper_mono rest _ hw
    case engineRelease =>
      have hmem : WorkAction.removeStream ∈ rest := by
        rcases List.mem_cons.mp h with h1 | h1
        · cases h1
        · exact h1
      simpa [runActs, doAction] using ih _ (by simpa using hi) hmem
    case otherWork =>
      have hmem : WorkAction.removeStream ∈ rest := by
        rcases List.mem_cons.mp h with h1 | h1
        · cases h1
        · exact h1
      simpa [runActs, doAction] using ih _ hi hmem

lemma noActAfterFreed_acts_freed : ∀ (as : List WorkAction),
    noActAfterFreed (as.map LifeEv.act ++ [LifeEv.freed]) = true := by
  intro as
  induction as with
  | nil => rfl
  | cons a rest ih => simpa [noActAfterFreed] using ih

/-- C2: deferred destruction. For any engine work item in which the engine's
per-request object referencing the stream is torn down (`engineRelease`)
and the registry removes the stream (`removeStream`, handing it to the
deferred-deletion wrapper that holds a strong reference), the stream object
is freed exactly once, the engine teardown is observed, and the stream is
never freed before any action of the work item — in particular the engine's
per-request object is destroyed strictly before the stream is freed. -/
theorem stream_freed_after_engine_release (as : List WorkAction)
    (h1 : WorkAction.engineRelease ∈ as) (h2 : WorkAction.removeStream ∈ as) :
    (runWorkItem initLife as).2.count LifeEv.freed = 1 ∧
    LifeEv.act WorkAction.engineRelease ∈ (runWorkItem initLife as).2 ∧
    noActAfterFreed (runWorkItem initLife as).2 = true := by
  obtain ⟨ha, _⟩ := runActs_acts as initLife (by rfl)
  have hreg := runActs_registry_of_mem as initLife h2
  have heng := runActs_engineRef_of_mem as initLife h1
  have hwr := runActs_wrapper_of_mem as initLife (by rfl) h2
  have hf : (runActs initLife as).1 =
      { registryRef := false, engineRef := false, wrapperRef := true } := by
    rcases hcase : (runActs initLife as).1 with ⟨r, e, w⟩
    rw [hcase] at hreg heng hwr
    simp_all
  have hevs : (runWorkItem initLife as).2 = as.map LifeEv.act ++ [LifeEv.freed] := by
    simp [runWorkItem, ha, hf, drainDeferred, refCount]
  refine ⟨?_, ?_, ?_⟩
  · rw [hevs]
    have hz : (as.map LifeEv.act).count LifeEv.freed = 0 := by
      rw [List.count_eq_zero]
      intro hmem
      rcases List.mem_map.mp hmem with ⟨a, _, hb⟩
      cases hb
    simp [List.count_append, hz]
  · rw [hevs]
    exact List.mem_append_left _ (List.mem_map_of_mem _ h1)
  · rw [hevs]
    exact noActAfterFreed_acts_freed as

/-- Witness for C2: a concrete work item that removes the stream from the
registry before the engine tears down its per-request object still frees
the stream exactly once, after every action of the item. -/
theorem stream_freed_after_engine_release_witness :
    (runWorkItem initLife [WorkAction.removeStream, WorkAction.otherWork,
        WorkAction.engineRelease]).2.count LifeEv.freed = 1 ∧
    LifeEv.act WorkAction.engineRelease ∈ (runWorkItem initLife
        [WorkAction.removeStream, WorkAction.otherWork, WorkAction.engineRelease]).2 ∧
    noActAfterFreed (runWorkItem initLife [WorkAction.removeStream,
        WorkAction.otherWork, WorkAction.engineRelease]).2 = true :=
  stream_freed_after_engine_release
    [WorkAction.removeStream, WorkAction.otherWork, WorkAction.engineRelease]
    (by decide) (by decide)

end EnvoyMobile
